import Mathlib

/-!
# Verification of the clockrobustus wire codecs, alarm logic and publisher tick

Shallow embedding of the Rust sources of `aitrs/clockrobustus`:

* `libclockrobustus/src/alarm.rs`   — `ActiveDays`, `Alarm`, `must_ring`, `remove`,
  `as_bytes`, `impl From<Vec<u8>> for Alarm`, serde (de)serialization of `ActiveDays`;
* `libclockrobustus/src/clock.rs`   — `ClockMessage`, `as_bytes`, `try_from`,
  `h24_to_radians`, `ms60_to_radians`;
* `libclockrobustus/src/message.rs` — `Message` envelope, `as_bytes`, `try_from`;
* `clockrobustusd/src/main.rs`      — the publisher `tick` function.

Modelling conventions:

* Bytes are `Nat` (the source values are `u8`; all byte values produced by the code
  are < 256 and the claims quantify over 8-bit ranges explicitly where it matters).
* Rust `Result<T, ClockError>` becomes `Decoded`/`Except String` (`ClockError` wraps a
  static string message).  A Rust *panic* (index or slice out of bounds on a `Vec`)
  is a distinct outcome, `Decoded.outOfBounds`: it is not an error value the caller
  can observe, so it must be kept apart from `Decoded.err`.
* `f32` angle fields of `ClockMessage` travel on the wire as 4 big-endian bytes and
  are decoded back with `f32::from_be_bytes`, which is a bijection on bit patterns;
  the embedding therefore carries each angle as its 4-byte big-endian pattern
  (a `Nat × Nat × Nat × Nat`), never re-deriving it.  The *numeric* content of the
  angle formulas is modelled separately (`h24_to_radians`, `ms60_to_radians`) over
  `ℚ`, as the exact coefficient of π: every intermediate value the Rust code computes
  is a rational multiple of π, and the claims under study are the formula identities.
-/

/-- Outcome of a fallible Rust decoding function: a successful value, an
`Err(ClockError(msg))`, or a panic caused by an out-of-bounds `Vec` index/slice. -/
inductive Decoded (α : Type) where
  | ok : α → Decoded α
  | err : String → Decoded α
  | outOfBounds : Decoded α
deriving DecidableEq

/-- Propagate a success, keep errors and panics (the behaviour of Rust's `?`
together with an infallible `From` conversion of the payload). -/
def Decoded.map (f : α → β) : Decoded α → Decoded β
  | .ok a => .ok (f a)
  | .err e => .err e
  | .outOfBounds => .outOfBounds

/-- Source `alarm.rs`: `pub struct Alarm { id, active_days, hour, minute, seconds }`.
`active_days` is the raw `ActiveDays` bitmask byte. -/
structure Alarm where
  id : Option Int
  active_days : Nat
  hour : Nat
  minute : Nat
  seconds : Nat
deriving DecidableEq

/-- Source `clock.rs`: `pub struct ClockMessage`.  The three `f32` angles are carried as
their big-endian 4-byte patterns (see the module docstring). -/
structure ClockMessage where
  hours : Nat
  minutes : Nat
  seconds : Nat
  hours_angle : Nat × Nat × Nat × Nat
  minutes_angle : Nat × Nat × Nat × Nat
  seconds_angle : Nat × Nat × Nat × Nat
deriving DecidableEq

/-- Source `message.rs`: `pub enum Message { Clock(ClockMessage), Alarm(Alarm) }`
(constructors lower-cased to keep the payload type names unambiguous). -/
inductive Message where
  | clock : ClockMessage → Message
  | alarm : Alarm → Message
deriving DecidableEq

namespace Alarm

/-- Source `alarm.rs` `Alarm::as_bytes`: `vec![0xff, active_days, hour, minute, seconds]`. -/
def as_bytes (a : Alarm) : List Nat :=
  [0xFF, a.active_days, a.hour, a.minute, a.seconds]

/-- Source `alarm.rs` `impl From<Vec<u8>> for Alarm`: reads `value[1]`..`value[4]`
(`value[0]` is ignored) and sets `id = None`.  Each index access panics when the
vector is too short, hence `outOfBounds` when any of indices 1..4 is missing. -/
def from_bytes (value : List Nat) : Decoded Alarm :=
  match value[1]?, value[2]?, value[3]?, value[4]? with
  | some d, some h, some m, some s => .ok ⟨none, d, h, m, s⟩
  | _, _, _, _ => .outOfBounds

end Alarm

namespace ClockMessage

/-- Flatten a 4-byte big-endian pattern. -/
def angleBytes (p : Nat × Nat × Nat × Nat) : List Nat :=
  [p.1, p.2.1, p.2.2.1, p.2.2.2]

/-- Source `clock.rs` `ClockMessage::as_bytes`: `[hours, minutes, seconds]` followed by the
three angles, each as 4 big-endian bytes — 15 bytes in total. -/
def as_bytes (c : ClockMessage) : List Nat :=
  [c.hours, c.minutes, c.seconds]
    ++ angleBytes c.hours_angle ++ angleBytes c.minutes_angle ++ angleBytes c.seconds_angle

/-- Rust slice `value[i..i+4]` converted to a 4-byte array: panics (`none` here)
unless all four positions exist. -/
def slice4 (value : List Nat) (i : Nat) : Option (Nat × Nat × Nat × Nat) :=
  match value[i]?, value[i+1]?, value[i+2]?, value[i+3]? with
  | some a, some b, some c, some d => some (a, b, c, d)
  | _, _, _, _ => none

/-- Source `clock.rs` `impl TryFrom<Vec<u8>> for ClockMessage`: reads `value[0]`, `value[1]`,
`value[2]` and the slices `value[3..7]`, `value[7..11]`, `value[11..15]`.  Every one
of those accesses panics when out of range (the `TryFromSliceError` path is dead
code: a slice that can be taken always has exactly 4 bytes), so any input shorter
than 15 bytes panics; on 15 or more bytes the fields are taken verbatim from the
wire, the angles never being recomputed. -/
def tryFrom (value : List Nat) : Decoded ClockMessage :=
  match value[0]?, value[1]?, value[2]?, slice4 value 3, slice4 value 7, slice4 value 11 with
  | some h, some m, some s, some a1, some a2, some a3 => .ok ⟨h, m, s, a1, a2, a3⟩
  | _, _, _, _, _, _ => .outOfBounds

end ClockMessage

namespace Message

/-- Source `message.rs`: `ALARM_MESSAGE_HEADER = 0xFF`. -/
def ALARM_MESSAGE_HEADER : Nat := 0xFF
/-- Source `message.rs`: `CLOCK_MESSAGE_HEADER = 0xFE`. -/
def CLOCK_MESSAGE_HEADER : Nat := 0xFE

/-- Source `message.rs` `impl From<Alarm> for Message`. -/
def from_alarm (a : Alarm) : Message := .alarm a

/-- Source `message.rs` `impl From<ClockMessage> for Message`. -/
def from_clock (c : ClockMessage) : Message := .clock c

/-- Source `message.rs` `Message::as_bytes`: the header byte followed by the variant's own
`as_bytes` payload. -/
def as_bytes : Message → List Nat
  | .alarm a => ALARM_MESSAGE_HEADER :: a.as_bytes
  | .clock c => CLOCK_MESSAGE_HEADER :: c.as_bytes

/-- Source `message.rs` `impl TryFrom<Vec<u8>> for Message`: error on an empty vector,
dispatch on `value[0]` (0xFF → Alarm, 0xFE → Clock, otherwise an unknown-header
error), handing `value[1..]` to the payload decoder. -/
def tryFrom (value : List Nat) : Decoded Message :=
  match value with
  | [] => .err "Cannot convert message from empty byte vector"
  | b :: rest =>
    if b = ALARM_MESSAGE_HEADER then (Alarm.from_bytes rest).map Message.alarm
    else if b = CLOCK_MESSAGE_HEADER then (ClockMessage.tryFrom rest).map Message.clock
    else .err "Unknown message header"

end Message

/-- Source `chrono::Weekday`, as used by `ActiveDays::to_weekdays`. -/
inductive Weekday where
  | mon | tue | wed | thu | fri | sat | sun
deriving DecidableEq

namespace ActiveDays

/-- Source `alarm.rs` `ActiveDays::as_vec`: walk the first 7 entries of `src_vec` with a
mask starting at 0x01 and doubled each step, keeping the entries whose bit is set
in the stored byte `d`. -/
def as_vec_aux (d : Nat) : List α → Nat → List α
  | [], _ => []
  | x :: rest, mask =>
    if d &&& mask > 0 then x :: as_vec_aux d rest (mask <<< 1)
    else as_vec_aux d rest (mask <<< 1)

/-- Source `alarm.rs` `ActiveDays::as_vec` (the `iter().take(7)` and the initial mask). -/
def as_vec (d : Nat) (src_vec : List α) : List α :=
  as_vec_aux d (src_vec.take 7) 0x01

/-- The day-name list of `ActiveDays::to_day_strings_vec`, Monday→Sunday. -/
def day_names : List String :=
  ["Monday", "Tuesday", "Wednesday", "Thursday", "Friday", "Saturday", "Sunday"]

/-- Source `alarm.rs` `ActiveDays::to_day_strings_vec`. -/
def to_day_strings_vec (d : Nat) : List String :=
  as_vec d day_names

/-- Source `alarm.rs` `ActiveDays::to_weekdays`. -/
def to_weekdays (d : Nat) : List Weekday :=
  as_vec d [.mon, .tue, .wed, .thu, .fri, .sat, .sun]

/-- The serde `Serialize` impl for `ActiveDays` emits exactly the elements of
`to_day_strings_vec`, in order, as a sequence. -/
def serialize (d : Nat) : List String :=
  to_day_strings_vec d

/-- The `match` inside the `ActiveDays` deserialization visitor: the bit a single
name token contributes (unknown tokens map to 0x00). -/
def day_bits (e : String) : Nat :=
  if e = "Monday" then 0x01
  else if e = "Tuesday" then 0x02
  else if e = "Wednesday" then 0x04
  else if e = "Thursday" then 0x08
  else if e = "Friday" then 0x10
  else if e = "Saturday" then 0x20
  else if e = "Sunday" then 0x40
  else 0x00

/-- The visitor loop of the serde `Deserialize` impl for `ActiveDays`: starting from
`iteration = 0` and `value = 0`, it stops once `iteration > 7` or the sequence is
exhausted, otherwise ORs in the bit of the next token. -/
def visit_seq : List String → Nat → Nat → Nat
  | [], _, value => value
  | e :: rest, iteration, value =>
    if iteration > 7 then value
    else visit_seq rest (iteration + 1) (value ||| day_bits e)

/-- The serde `Deserialize` impl for `ActiveDays`: run the visitor over the token
sequence. -/
def deserialize (tokens : List String) : Nat :=
  visit_seq tokens 0 0

end ActiveDays

/-- Model of `chrono::NaiveTime::from_hms_opt`: `None` unless `hour < 24`,
`minute < 60` and `seconds < 60` (leap seconds are not produced by this
constructor); a valid time is its number of nanoseconds since midnight. -/
def hms_opt (hour minute seconds : Nat) : Option Nat :=
  if hour < 24 ∧ minute < 60 ∧ seconds < 60 then
    some ((hour * 3600 + minute * 60 + seconds) * 1000000000)
  else none

/-- Source `alarm.rs` `Alarm::must_ring`, with the ambient instant `Local::now()`
made an explicit argument: its calendar weekday and its time of day in nanoseconds
since local midnight (`chrono::NaiveTime` compares and subtracts as exactly that
quantity).  The source builds the alarm's `NaiveTime` first (error if the fields
are out of range), then answers `Ok(true)` exactly when the weekday is in
`to_weekdays`, the current time of day is `>=` the alarm's, and their (signed)
difference is below `Duration::seconds(1)`. -/
def Alarm.must_ring (a : Alarm) (weekday : Weekday) (time_of_day : Nat) :
    Except String Bool :=
  match hms_opt a.hour a.minute a.seconds with
  | none => .error "Could not create naive time for alarm"
  | some alarm_naive =>
    if weekday ∈ ActiveDays.to_weekdays a.active_days then
      let alarm_delta : Int := (time_of_day : Int) - (alarm_naive : Int)
      if alarm_naive ≤ time_of_day ∧ alarm_delta < 1000000000 then .ok true
      else .ok false
    else .ok false

/-- Row of the SQLite `alarms` table: `id INTEGER PRIMARY KEY` plus the four data
columns. -/
structure AlarmRow where
  id : Int
  active_days : Nat
  hour : Nat
  minute : Nat
  seconds : Nat
deriving DecidableEq

/-- Source `alarm.rs` `Alarm::remove`, over the table contents as an explicit row
list (`check_table` only ensures the table exists, which the list model gives for
free).  `id = None` is the unsaved-entity error; otherwise the SQL
`DELETE FROM alarms WHERE id = {eid}` keeps exactly the rows whose id differs,
succeeding whether or not any row matched. -/
def Alarm.remove (a : Alarm) (db : List AlarmRow) : Except String (List AlarmRow) :=
  match a.id with
  | none => .error "Impossible to delete an unsaved alarm"
  | some eid => .ok (db.filter (fun r => r.id != eid))

namespace ClockMessage

/-- Source `clock.rs` `ClockMessage::h24_to_radians`, with every angle represented
by its exact coefficient of π: the Rust expression `x * PI / k` is modelled as the
rational `x / k`.  (Every value the source computes is such a rational multiple of
π, so this representation is faithful to the formula content of the computation.) -/
def h24_to_radians (hours minutes : Nat) : ℚ :=
  let minute_arc : ℚ := (minutes : ℚ) / 360
  let hour_arc : ℚ := 1 / 2 + ((hours % 12 : Nat) : ℚ) / 6
  minute_arc + hour_arc

/-- Source `clock.rs` `ClockMessage::ms60_to_radians`, in the same
coefficient-of-π representation as `h24_to_radians`; `arc.unwrap_or(0)` is
`Option.getD arc 0`. -/
def ms60_to_radians (value : Nat) (arc : Option Nat) : ℚ :=
  let arc_q : ℚ := ((arc.getD 0 : Nat) : ℚ) / 1800
  let angle : ℚ := 1 / 2 + ((value % 60 : Nat) : ℚ) / 30
  angle + arc_q

end ClockMessage

/-- Source `clockrobustusd/src/main.rs` `tick`, alarm loop: for each alarm, the
`must_ring()?` outcome (`ring`, a function of the alarm since the current instant
is fixed within a tick) either aborts the tick with its error, or — when true —
the alarm's bytes are handed to `socket.send`, whose outcome (`send`; `none` is
success) can also abort the tick.  Returns the frames successfully sent, in order,
and the error that stopped the loop, if any. -/
def tick_alarms (ring : Alarm → Except String Bool) (send : List Nat → Option String) :
    List Alarm → List (List Nat) × Option String
  | [] => ([], none)
  | a :: rest =>
    match ring a with
    | .error e => ([], some e)
    | .ok true =>
      match send a.as_bytes with
      | some e => ([], some e)
      | none =>
        ((a.as_bytes) :: (tick_alarms ring send rest).1, (tick_alarms ring send rest).2)
    | .ok false => tick_alarms ring send rest

/-- Source `clockrobustusd/src/main.rs` `tick`: `Alarm::all(conn)?` (its outcome is
the `alarms_result` argument), then the alarm loop, then
`socket.send(ClockMessage::default().as_bytes())` — the fresh snapshot built from
the current time is the `clock_message` argument.  Every `?` aborts the remainder
of the tick; the returned pair is (frames actually sent, the tick's error if any).
Note the sends are of `alarm.as_bytes()` and `clock_message.as_bytes()` directly:
no `Message` envelope is applied. -/
def tick (alarms_result : Except String (List Alarm)) (ring : Alarm → Except String Bool)
    (send : List Nat → Option String) (clock_message : ClockMessage) :
    List (List Nat) × Option String :=
  match alarms_result with
  | .error e => ([], some e)
  | .ok alarms =>
    match tick_alarms ring send alarms with
    | (frames, some e) => (frames, some e)
    | (frames, none) =>
      match send clock_message.as_bytes with
      | some e => (frames, some e)
      | none => (frames ++ [clock_message.as_bytes], none)

/-- Concrete `ClockMessage` as `Default` would build it at exactly 12:00:00 local
time: all three hands at angle π/2, whose `f32` big-endian bit pattern is
0x3FC90FDB. -/
def noon_clock : ClockMessage :=
  ⟨12, 0, 0, (0x3F, 0xC9, 0x0F, 0xDB), (0x3F, 0xC9, 0x0F, 0xDB), (0x3F, 0xC9, 0x0F, 0xDB)⟩

/-- Predicate used to state which alarms the tick publishes: those whose
`must_ring` outcome was `Ok(true)`. -/
def rings_true (ring : Alarm → Except String Bool) (a : Alarm) : Bool :=
  match ring a with
  | .ok true => true
  | _ => false

set_option maxRecDepth 8192 in
/-- C5: the `ActiveDays` round-trip.  For every 7-bit mask, deserializing the
serialized ordered weekday-name list restores the mask; mask 0x01 serializes to
`["Monday"]` and 0x03 to `["Monday", "Tuesday"]`; a token that is not one of the
seven weekday names contributes no bit during deserialization. -/
theorem activeDays_roundtrip :
    (∀ mask : Fin 0x80, ActiveDays.deserialize (ActiveDays.serialize mask.val) = mask.val)
    ∧ ActiveDays.serialize 0x01 = ["Monday"]
    ∧ ActiveDays.serialize 0x03 = ["Monday", "Tuesday"]
    ∧ (∀ e : String, e ∉ ActiveDays.day_names → ActiveDays.day_bits e = 0) := by
  refine ⟨by decide, rfl, rfl, ?_⟩
  intro e he
  simp only [ActiveDays.day_names, List.mem_cons, List.not_mem_nil, or_false, not_or] at he
  obtain ⟨h1, h2, h3, h4, h5, h6, h7⟩ := he
  simp [ActiveDays.day_bits, h1, h2, h3, h4, h5, h6, h7]

/-- Witness for `activeDays_roundtrip` at concrete inputs: mask 0x55 round-trips,
and the unknown token "Holiday" contributes no bit. -/
theorem activeDays_roundtrip_witness :
    ActiveDays.deserialize (ActiveDays.serialize 0x55) = 0x55
    ∧ ActiveDays.day_bits "Holiday" = 0 :=
  ⟨activeDays_roundtrip.1 (0x55 : Fin 0x80),
   activeDays_roundtrip.2.2.2 "Holiday" (by decide)⟩

set_option maxRecDepth 8192 in
/-- C10: `ActiveDays` serialization reads only bits 0–6 — for every 8-bit mask the
emitted weekday-name list equals the list for the mask with bit 7 cleared, so masks
0x80–0xFF serialize exactly like their low-7-bit counterparts and serialization is
not injective on the full `u8` range (0x80 and 0x00 collide). -/
theorem activeDays_serialize_ignores_bit7 :
    (∀ mask : Fin 0x100,
      ActiveDays.to_day_strings_vec mask.val
        = ActiveDays.to_day_strings_vec (mask.val &&& 0x7F))
    ∧ ActiveDays.to_day_strings_vec 0x80 = ActiveDays.to_day_strings_vec 0x00
    ∧ (0x80 : Nat) ≠ 0x00 := by
  refine ⟨by decide, rfl, by decide⟩

/-- C1: Envelope decoding on the spec's test vectors.  The empty vector and the
unknown-header vector do return errors, but `[0xFF]`, `[0xFF,0x01]` and even the
"good" vector `[0xFF,0x01,12,0,0]` all panic: `Message::try_from` strips the header
byte and hands the 4-byte remainder `[0x01,12,0,0]` to `Alarm::from`, which reads
indices 1..4 — index 4 is out of bounds.  This contradicts the crate's own doctest
(`message.rs` lines 57–79), which asserts `is_err()` for the short vectors and a
successful decode of the good one. -/
theorem message_tryFrom_test_vectors :
    Message.tryFrom [] = .err "Cannot convert message from empty byte vector"
    ∧ Message.tryFrom [0x01, 0x02] = .err "Unknown message header"
    ∧ Message.tryFrom [0xFF] = .outOfBounds
    ∧ Message.tryFrom [0xFF, 0x01] = .outOfBounds
    ∧ Message.tryFrom [0xFF, 0x01, 12, 0, 0] = .outOfBounds := by
  refine ⟨rfl, ?_, rfl, rfl, rfl⟩
  rfl

/-- C4: `ClockMessage::try_from` panics (out-of-bounds index or slice) on every
input shorter than 15 bytes — it never returns the too-short decode error the spec
describes — while on 15 or more bytes it reconstructs the struct verbatim from
`[hours:1][minutes:1][seconds:1][hour_angle:4][minute_angle:4][second_angle:4]`
without recomputing the angles (extra trailing bytes are ignored). -/
theorem clockMessage_tryFrom_short_panics :
    (∀ value : List Nat, value.length < 15 → ClockMessage.tryFrom value = .outOfBounds)
    ∧ ClockMessage.tryFrom [1, 2, 3, 10, 11, 12, 13, 20, 21, 22, 23, 30, 31, 32, 33, 99]
      = .ok ⟨1, 2, 3, (10, 11, 12, 13), (20, 21, 22, 23), (30, 31, 32, 33)⟩ := by
  constructor
  · intro value hlen
    have h14 : value[14]? = none := by
      rw [List.getElem?_eq_none_iff]
      omega
    have h11 : ClockMessage.slice4 value 11 = none := by
      unfold ClockMessage.slice4
      split
      · simp_all
      · rfl
    unfold ClockMessage.tryFrom
    split
    · simp_all
    · rfl
  · rfl

/-- Witness: evaluation of `ClockMessage::try_from` at the concrete failing input
of C4 — a 14-byte (all-zero) buffer panics instead of returning a decode error. -/
theorem clockMessage_tryFrom_14_zeros :
    ClockMessage.tryFrom (List.replicate 14 0) = .outOfBounds :=
  clockMessage_tryFrom_short_panics.1 (List.replicate 14 0) (by simp)

/-- C9: envelope-encoding an Alarm emits the 0xFF discriminant twice — once as the
`Message` header and once as the sentinel `Alarm::as_bytes` itself prepends — giving
the 6-byte frame `[0xFF, 0xFF, active_days, hour, minute, seconds]`; decoding that
frame succeeds (`Alarm::from` ignores byte 0 of the payload, which is exactly the
doubled 0xFF) and recovers the four data fields with `id = none`. -/
theorem message_alarm_roundtrip (a : Alarm) :
    (Message.from_alarm a).as_bytes
      = [0xFF, 0xFF, a.active_days, a.hour, a.minute, a.seconds]
    ∧ Message.tryFrom ((Message.from_alarm a).as_bytes)
      = .ok (.alarm ⟨none, a.active_days, a.hour, a.minute, a.seconds⟩) := by
  exact ⟨rfl, rfl⟩

/-- Witness for `message_alarm_roundtrip` at a concrete (already saved) alarm:
the persisted id is dropped on the wire and comes back as `none`. -/
theorem message_alarm_roundtrip_witness :
    (Message.from_alarm ⟨some 3, 0x03, 6, 45, 30⟩).as_bytes
      = [0xFF, 0xFF, 0x03, 6, 45, 30]
    ∧ Message.tryFrom ((Message.from_alarm ⟨some 3, 0x03, 6, 45, 30⟩).as_bytes)
      = .ok (.alarm ⟨none, 0x03, 6, 45, 30⟩) :=
  message_alarm_roundtrip ⟨some 3, 0x03, 6, 45, 30⟩

/-- Witness for `activeDays_serialize_ignores_bit7` at mask 0xAA. -/
theorem activeDays_serialize_ignores_bit7_witness :
    ActiveDays.to_day_strings_vec 0xAA
      = ActiveDays.to_day_strings_vec (0xAA &&& 0x7F) :=
  activeDays_serialize_ignores_bit7.1 (0xAA : Fin 0x100)

/-- C6: the alarm evaluator.  For an alarm with in-range time fields and any
instant, `must_ring` answers `Ok(true)` exactly when the instant's weekday is
among the alarm's active days, its time of day is at least the alarm's configured
time of day, and the two differ by strictly less than one second. -/
theorem must_ring_spec (a : Alarm) (weekday : Weekday) (time_of_day : Nat)
    (hh : a.hour < 24) (hm : a.minute < 60) (hs : a.seconds < 60) :
    a.must_ring weekday time_of_day = .ok true
      ↔ (weekday ∈ ActiveDays.to_weekdays a.active_days
         ∧ (a.hour * 3600 + a.minute * 60 + a.seconds) * 1000000000 ≤ time_of_day
         ∧ time_of_day - (a.hour * 3600 + a.minute * 60 + a.seconds) * 1000000000
             < 1000000000) := by
  have hvalid : a.hour < 24 ∧ a.minute < 60 ∧ a.seconds < 60 := ⟨hh, hm, hs⟩
  unfold Alarm.must_ring hms_opt
  rw [if_pos hvalid]
  dsimp only
  by_cases hmem : weekday ∈ ActiveDays.to_weekdays a.active_days
  · rw [if_pos hmem]
    split
    · rename_i hcond
      exact iff_of_true rfl ⟨hmem, hcond.1, by omega⟩
    · rename_i hcond
      refine iff_of_false (by simp) ?_
      rintro ⟨-, h1, h2⟩
      exact hcond ⟨h1, by omega⟩
  · rw [if_neg hmem]
    exact iff_of_false (by simp) (fun h => hmem h.1)

/-- Witness for `must_ring_spec`: an alarm at 12:00:00 active on Monday rings at
exactly Monday noon. -/
theorem must_ring_spec_witness :
    (⟨none, 0x01, 12, 0, 0⟩ : Alarm).must_ring .mon 43200000000000 = .ok true :=
  (must_ring_spec ⟨none, 0x01, 12, 0, 0⟩ .mon 43200000000000
    (by decide) (by decide) (by decide)).mpr ⟨by decide, by decide, by decide⟩

/-- C7: alarm removal.  With `id` unset, `remove` reports the unsaved-entity
error; with `id = eid` it succeeds and keeps exactly the rows whose id differs
from `eid`; and when no row carries `eid` the table is returned unchanged — a
silent no-op. -/
theorem remove_spec :
    (∀ (a : Alarm) (db : List AlarmRow), a.id = none →
      a.remove db = .error "Impossible to delete an unsaved alarm")
    ∧ (∀ (a : Alarm) (db : List AlarmRow) (eid : Int), a.id = some eid →
      a.remove db = .ok (db.filter (fun r => r.id != eid)))
    ∧ (∀ (a : Alarm) (db : List AlarmRow) (eid : Int), a.id = some eid →
      (∀ r ∈ db, r.id ≠ eid) → a.remove db = .ok db) := by
  refine ⟨?_, ?_, ?_⟩
  · intro a db hid
    unfold Alarm.remove
    rw [hid]
  · intro a db eid hid
    unfold Alarm.remove
    rw [hid]
  · intro a db eid hid hno
    have hfilter : db.filter (fun r => r.id != eid) = db :=
      List.filter_eq_self.mpr (fun r hr => by simpa using hno r hr)
    unfold Alarm.remove
    rw [hid]
    dsimp only
    rw [hfilter]

/-- Witness for `remove_spec`: removing an unsaved alarm fails, and removing a
saved alarm whose id 5 is absent from the table leaves the table as it was. -/
theorem remove_spec_witness :
    (⟨none, 1, 2, 3, 4⟩ : Alarm).remove [] = .error "Impossible to delete an unsaved alarm"
    ∧ (⟨some 5, 1, 2, 3, 4⟩ : Alarm).remove [⟨6, 0, 0, 0, 0⟩] = .ok [⟨6, 0, 0, 0, 0⟩] :=
  ⟨remove_spec.1 ⟨none, 1, 2, 3, 4⟩ [] rfl,
   remove_spec.2.2 ⟨some 5, 1, 2, 3, 4⟩ [⟨6, 0, 0, 0, 0⟩] 5 rfl (by decide)⟩

/-- C8: the hand-angle formulas.  In the coefficient-of-π representation (an angle
q stands for q·π radians), for every in-range hour, minute and second:
`hour_angle = π/2 + π·(hour mod 12)/6 + π·minute/360`,
`minute_angle = π/2 + π·minute/30 + π·second/1800`, and
`second_angle = π/2 + π·second/30` — exact rational arithmetic; the `f32` source
evaluates the same sums in an order that IEEE-754 addition (commutative) makes
bit-identical. -/
theorem hand_angle_formulas (hours minutes seconds : Nat)
    (hh : hours < 24) (hm : minutes < 60) (hs : seconds < 60) :
    ClockMessage.h24_to_radians hours minutes
        = 1 / 2 + ((hours % 12 : Nat) : ℚ) / 6 + (minutes : ℚ) / 360
    ∧ ClockMessage.ms60_to_radians minutes (some seconds)
        = 1 / 2 + (minutes : ℚ) / 30 + (seconds : ℚ) / 1800
    ∧ ClockMessage.ms60_to_radians seconds none = 1 / 2 + (seconds : ℚ) / 30 := by
  unfold ClockMessage.h24_to_radians ClockMessage.ms60_to_radians
  rw [Nat.mod_eq_of_lt hm, Nat.mod_eq_of_lt hs]
  refine ⟨by ring, by simp [Option.getD], by simp [Option.getD]⟩

/-- Witness for `hand_angle_formulas` at 09:30:15. -/
theorem hand_angle_formulas_witness :
    ClockMessage.h24_to_radians 9 30 = 1 / 2 + ((9 % 12 : Nat) : ℚ) / 6 + (30 : ℚ) / 360
    ∧ ClockMessage.ms60_to_radians 30 (some 15)
        = 1 / 2 + (30 : ℚ) / 30 + (15 : ℚ) / 1800
    ∧ ClockMessage.ms60_to_radians 15 none = 1 / 2 + (15 : ℚ) / 30 :=
  hand_angle_formulas 9 30 15 (by decide) (by decide) (by decide)

/-- Helper: every frame produced by the alarm loop of `tick` is the `as_bytes` of
one of the listed alarms whose `must_ring` outcome was `Ok(true)`. -/
theorem tick_alarms_frames (ring : Alarm → Except String Bool)
    (send : List Nat → Option String) :
    ∀ alarms : List Alarm, ∀ frame ∈ (tick_alarms ring send alarms).1,
      ∃ a ∈ alarms, ring a = .ok true ∧ frame = a.as_bytes := by
  intro alarms
  induction alarms with
  | nil => simp [tick_alarms]
  | cons a rest ih =>
    intro frame hf
    unfold tick_alarms at hf
    cases hr : ring a with
    | error e => rw [hr] at hf; simp at hf
    | ok b =>
      rw [hr] at hf
      cases b with
      | false =>
        obtain ⟨x, hx, hrx, hfx⟩ := ih frame hf
        exact ⟨x, List.mem_cons_of_mem a hx, hrx, hfx⟩
      | true =>
        cases hs : send a.as_bytes with
        | some e => rw [hs] at hf; simp at hf
        | none =>
          rw [hs] at hf
          rcases List.mem_cons.mp hf with hfa | hfrest
          · exact ⟨a, List.mem_cons_self a rest, hr, hfa⟩
          · obtain ⟨x, hx, hrx, hfx⟩ := ih frame hfrest
            exact ⟨x, List.mem_cons_of_mem a hx, hrx, hfx⟩

/-- C2 counterexample: a tick at 12:00:00 with no stored alarms publishes exactly
one frame — the raw 15-byte clock payload, whose first byte is the hour value 12,
not the 0xFE envelope header; indeed the repository's own envelope decoder rejects
that frame with the unknown-header error. -/
theorem tick_clock_frame_not_enveloped :
    (tick (.ok []) (fun _ => .ok false) (fun _ => none) noon_clock).1
      = [noon_clock.as_bytes]
    ∧ noon_clock.as_bytes.length = 15
    ∧ noon_clock.as_bytes.head? = some 12
    ∧ (12 : Nat) ≠ Message.CLOCK_MESSAGE_HEADER
    ∧ Message.tryFrom noon_clock.as_bytes = .err "Unknown message header" :=
  ⟨rfl, rfl, rfl, by decide, rfl⟩

/-- C2 as amended: every frame `tick` hands to the transport is either
`alarm.as_bytes()` for a ringing alarm — 5 bytes whose first byte is the 0xFF
sentinel `Alarm::as_bytes` itself prepends — or the raw 15-byte
`ClockMessage::as_bytes()` payload whose first byte is the hours field; no
`Message` envelope (in particular no 0xFE header) is ever applied. -/
theorem tick_frames_shape (alarms_result : Except String (List Alarm))
    (ring : Alarm → Except String Bool) (send : List Nat → Option String)
    (clock_message : ClockMessage) :
    ∀ frame ∈ (tick alarms_result ring send clock_message).1,
      (∃ a, ring a = .ok true ∧ frame = a.as_bytes
        ∧ frame.head? = some 0xFF ∧ frame.length = 5)
      ∨ (frame = clock_message.as_bytes
        ∧ frame.head? = some clock_message.hours ∧ frame.length = 15) := by
  intro frame hf
  cases alarms_result with
  | error e => simp [tick] at hf
  | ok alarms =>
    unfold tick at hf
    dsimp only at hf
    rcases htl : tick_alarms ring send alarms with ⟨frames, err⟩
    rw [htl] at hf
    have halarm : frame ∈ frames →
        (∃ a, ring a = .ok true ∧ frame = a.as_bytes
          ∧ frame.head? = some 0xFF ∧ frame.length = 5) := by
      intro hmem
      have hmem' : frame ∈ (tick_alarms ring send alarms).1 := by
        rw [htl]
        exact hmem
      obtain ⟨a, _, hra, hfa⟩ := tick_alarms_frames ring send alarms frame hmem'
      exact ⟨a, hra, hfa, by rw [hfa]; rfl, by rw [hfa]; rfl⟩
    cases err with
    | some e =>
      dsimp only at hf
      exact Or.inl (halarm hf)
    | none =>
      dsimp only at hf
      cases hsnd : send clock_message.as_bytes with
      | some e =>
        rw [hsnd] at hf
        dsimp only at hf
        exact Or.inl (halarm hf)
      | none =>
        rw [hsnd] at hf
        dsimp only at hf
        rcases List.mem_append.mp hf with hmem | hclock
        · exact Or.inl (halarm hmem)
        · refine Or.inr ⟨List.mem_singleton.mp hclock, ?_, ?_⟩
          · rw [List.mem_singleton.mp hclock]; rfl
          · rw [List.mem_singleton.mp hclock]
            simp [ClockMessage.as_bytes, ClockMessage.angleBytes]

/-- Witness for `tick_frames_shape`: the single frame of a no-alarm tick is the
raw clock payload. -/
theorem tick_frames_shape_witness :
    (∃ a : Alarm, (fun _ : Alarm => (Except.ok false : Except String Bool)) a = .ok true
      ∧ noon_clock.as_bytes = a.as_bytes
      ∧ noon_clock.as_bytes.head? = some 0xFF ∧ noon_clock.as_bytes.length = 5)
    ∨ (noon_clock.as_bytes = noon_clock.as_bytes
      ∧ noon_clock.as_bytes.head? = some noon_clock.hours
      ∧ noon_clock.as_bytes.length = 15) :=
  tick_frames_shape (.ok []) (fun _ => (Except.ok false : Except String Bool))
    (fun _ => none) noon_clock noon_clock.as_bytes (by decide)

/-- C3 counterexample: on a tick whose store read fails, `tick` aborts at the
first `?` — no frame at all is published, in particular no clock frame. -/
theorem tick_store_failure_no_clock_frame :
    tick (.error "Database Error") (fun _ => .ok false) (fun _ => none) noon_clock
      = ([], some "Database Error") :=
  rfl

/-- Helper: a clock frame is never equal to an alarm frame — their lengths are
15 and 5 bytes respectively. -/
theorem clock_bytes_ne_alarm_bytes (c : ClockMessage) (a : Alarm) :
    c.as_bytes ≠ a.as_bytes := by
  intro h
  have hlen := congrArg List.length h
  simp [ClockMessage.as_bytes, ClockMessage.angleBytes, Alarm.as_bytes] at hlen

/-- Helper: the alarm loop of `tick`, when every `must_ring` evaluation succeeds
and every alarm-frame send succeeds, sends exactly the ringing alarms' bytes, in
table order, and reports no error. -/
theorem tick_alarms_success (ring : Alarm → Except String Bool)
    (send : List Nat → Option String) :
    ∀ alarms : List Alarm, (∀ x ∈ alarms, ∃ b, ring x = .ok b) →
      (∀ x ∈ alarms, send x.as_bytes = none) →
      tick_alarms ring send alarms
        = ((alarms.filter (rings_true ring)).map Alarm.as_bytes, none) := by
  intro alarms
  induction alarms with
  | nil => intro _ _; rfl
  | cons a rest ih =>
    intro hall hsend
    obtain ⟨b, hb⟩ := hall a (List.mem_cons_self a rest)
    have hrest := fun x hx => hall x (List.mem_cons_of_mem a hx)
    have hsrest := fun x hx => hsend x (List.mem_cons_of_mem a hx)
    unfold tick_alarms
    rw [hb]
    cases b with
    | true =>
      dsimp only
      rw [hsend a (List.mem_cons_self a rest), ih hrest hsrest]
      simp [List.filter_cons, rings_true, hb]
    | false =>
      dsimp only
      rw [ih hrest hsrest]
      simp [List.filter_cons, rings_true, hb]

/-- Helper: the alarm loop of `tick` aborts at the first alarm whose `must_ring`
errors, or which rings but whose send fails; the frames already sent are exactly
the ringing alarms before it, and the loop reports that alarm's error. -/
theorem tick_alarms_abort (ring : Alarm → Except String Bool)
    (send : List Nat → Option String) :
    ∀ (pre : List Alarm) (a : Alarm) (rest : List Alarm) (e : String),
      (∀ x ∈ pre, ∃ b, ring x = .ok b) → (∀ x ∈ pre, send x.as_bytes = none) →
      (ring a = .error e ∨ (ring a = .ok true ∧ send a.as_bytes = some e)) →
      tick_alarms ring send (pre ++ a :: rest)
        = ((pre.filter (rings_true ring)).map Alarm.as_bytes, some e) := by
  intro pre
  induction pre with
  | nil =>
    intro a rest e _ _ hfail
    simp only [List.nil_append, List.filter_nil, List.map_nil]
    rcases hfail with hra | ⟨hra, hsa⟩
    · unfold tick_alarms
      rw [hra]
    · unfold tick_alarms
      rw [hra]
      dsimp only
      rw [hsa]
  | cons p pre' ih =>
    intro a rest e hpre hpsend hfail
    obtain ⟨b, hb⟩ := hpre p (List.mem_cons_self p pre')
    have hpre' := fun x hx => hpre x (List.mem_cons_of_mem p hx)
    have hpsend' := fun x hx => hpsend x (List.mem_cons_of_mem p hx)
    rw [List.cons_append]
    unfold tick_alarms
    rw [hb]
    cases b with
    | true =>
      dsimp only
      rw [hpsend p (List.mem_cons_self p pre'), ih a rest e hpre' hpsend' hfail]
      simp [List.filter_cons, rings_true, hb]
    | false =>
      dsimp only
      rw [ih a rest e hpre' hpsend' hfail]
      simp [List.filter_cons, rings_true, hb]

/-- C3 as amended: a mid-tick failure of any kind aborts the tick so the clock
frame is *not* sent on that iteration (the error is logged by the main loop, which
then proceeds to the next tick).  The five conjuncts: (1) a store read failure
publishes nothing; (2) a `must_ring` error, or a ringing alarm whose publish
fails, aborts after the earlier ringing alarms' frames and before the clock frame;
(3) a clock-frame publish failure leaves only the alarm frames; (4) on a tick
where the store read, every `must_ring` evaluation and every publish succeed, the
fresh clock frame is published last; (5) conversely and in general, the clock
frame appears among the published frames exactly when the tick finished without
any error. -/
theorem tick_clock_frame_conditions :
    (∀ (e : String) (ring : Alarm → Except String Bool)
        (send : List Nat → Option String) (c : ClockMessage),
      tick (.error e) ring send c = ([], some e))
    ∧ (∀ (pre : List Alarm) (a : Alarm) (rest : List Alarm) (e : String)
        (ring : Alarm → Except String Bool) (send : List Nat → Option String)
        (c : ClockMessage),
      (∀ x ∈ pre, ∃ b, ring x = .ok b) → (∀ x ∈ pre, send x.as_bytes = none) →
      (ring a = .error e ∨ (ring a = .ok true ∧ send a.as_bytes = some e)) →
      tick (.ok (pre ++ a :: rest)) ring send c
        = ((pre.filter (rings_true ring)).map Alarm.as_bytes, some e))
    ∧ (∀ (alarms : List Alarm) (e : String) (ring : Alarm → Except String Bool)
        (send : List Nat → Option String) (c : ClockMessage),
      (∀ x ∈ alarms, ∃ b, ring x = .ok b) → (∀ x ∈ alarms, send x.as_bytes = none) →
      send c.as_bytes = some e →
      tick (.ok alarms) ring send c
        = ((alarms.filter (rings_true ring)).map Alarm.as_bytes, some e))
    ∧ (∀ (alarms : List Alarm) (ring : Alarm → Except String Bool)
        (send : List Nat → Option String) (c : ClockMessage),
      (∀ x ∈ alarms, ∃ b, ring x = .ok b) → (∀ x ∈ alarms, send x.as_bytes = none) →
      send c.as_bytes = none →
      tick (.ok alarms) ring send c
        = ((alarms.filter (rings_true ring)).map Alarm.as_bytes ++ [c.as_bytes], none))
    ∧ (∀ (alarms_result : Except String (List Alarm))
        (ring : Alarm → Except String Bool) (send : List Nat → Option String)
        (c : ClockMessage),
      c.as_bytes ∈ (tick alarms_result ring send c).1
        ↔ (tick alarms_result ring send c).2 = none) := by
  refine ⟨?_, ?_, ?_, ?_, ?_⟩
  · intro e ring send c
    rfl
  · intro pre a rest e ring send c hpre hpsend hfail
    unfold tick
    dsimp only
    rw [tick_alarms_abort ring send pre a rest e hpre hpsend hfail]
  · intro alarms e ring send c hall hsend hclock
    unfold tick
    dsimp only
    rw [tick_alarms_success ring send alarms hall hsend]
    dsimp only
    rw [hclock]
  · intro alarms ring send c hall hsend hclock
    unfold tick
    dsimp only
    rw [tick_alarms_success ring send alarms hall hsend]
    dsimp only
    rw [hclock]
  · intro alarms_result ring send c
    cases alarms_result with
    | error e => simp [tick]
    | ok alarms =>
      unfold tick
      dsimp only
      rcases htl : tick_alarms ring send alarms with ⟨frames, err⟩
      have hnotin : c.as_bytes ∉ frames := by
        intro hmem
        have hmem' : c.as_bytes ∈ (tick_alarms ring send alarms).1 := by
          rw [htl]
          exact hmem
        obtain ⟨x, -, -, hx⟩ := tick_alarms_frames ring send alarms c.as_bytes hmem'
        exact clock_bytes_ne_alarm_bytes c x hx
      cases err with
      | some e =>
        dsimp only
        simp [hnotin]
      | none =>
        dsimp only
        cases hsnd : send c.as_bytes with
        | some e =>
          dsimp only
          simp [hnotin]
        | none =>
          dsimp only
          simp

/-- Witness for `tick_clock_frame_conditions`, one concrete tick per conjunct: a
store failure publishes nothing; a `must_ring` error on the only alarm publishes
nothing; a send that fails exactly on 15-byte frames lets the alarm frame out but
aborts before the clock frame; the all-success tick publishes the alarm frame
then the clock frame; and on the store-failure tick the clock frame is indeed
absent iff-wise. -/
theorem tick_clock_frame_conditions_witness :
    tick (.error "Database Error") (fun _ => (Except.ok false : Except String Bool))
        (fun _ => none) ⟨7, 30, 0, (0, 0, 0, 0), (0, 0, 0, 0), (0, 0, 0, 0)⟩
      = ([], some "Database Error")
    ∧ tick (.ok [⟨none, 1, 7, 30, 0⟩])
        (fun _ => (Except.error "Could not create naive time for alarm"
          : Except String Bool))
        (fun _ => none) ⟨7, 30, 0, (0, 0, 0, 0), (0, 0, 0, 0), (0, 0, 0, 0)⟩
      = ([], some "Could not create naive time for alarm")
    ∧ tick (.ok [⟨none, 1, 7, 30, 0⟩])
        (fun a => (Except.ok (decide (a.hour = 7)) : Except String Bool))
        (fun f => if f.length = 15 then some "ZMQ Error" else none)
        ⟨7, 30, 0, (0, 0, 0, 0), (0, 0, 0, 0), (0, 0, 0, 0)⟩
      = ([[0xFF, 1, 7, 30, 0]], some "ZMQ Error")
    ∧ tick (.ok [⟨none, 1, 7, 30, 0⟩])
        (fun a => (Except.ok (decide (a.hour = 7)) : Except String Bool))
        (fun _ => none) ⟨7, 30, 0, (0, 0, 0, 0), (0, 0, 0, 0), (0, 0, 0, 0)⟩
      = ([[0xFF, 1, 7, 30, 0], [7, 30, 0, 0, 0, 0, 0, 0, 0, 0, 0, 0, 0, 0, 0]], none)
    ∧ ((⟨7, 30, 0, (0, 0, 0, 0), (0, 0, 0, 0), (0, 0, 0, 0)⟩ : ClockMessage).as_bytes
        ∈ (tick (.error "Database Error")
            (fun _ => (Except.ok false : Except String Bool)) (fun _ => none)
            ⟨7, 30, 0, (0, 0, 0, 0), (0, 0, 0, 0), (0, 0, 0, 0)⟩).1
      ↔ (tick (.error "Database Error")
            (fun _ => (Except.ok false : Except String Bool)) (fun _ => none)
            ⟨7, 30, 0, (0, 0, 0, 0), (0, 0, 0, 0), (0, 0, 0, 0)⟩).2 = none) :=
  ⟨tick_clock_frame_conditions.1 "Database Error"
      (fun _ => (Except.ok false : Except String Bool)) (fun _ => none)
      ⟨7, 30, 0, (0, 0, 0, 0), (0, 0, 0, 0), (0, 0, 0, 0)⟩,
   (tick_clock_frame_conditions.2.1 [] ⟨none, 1, 7, 30, 0⟩ []
      "Could not create naive time for alarm"
      (fun _ => (Except.error "Could not create naive time for alarm"
        : Except String Bool))
      (fun _ => none) ⟨7, 30, 0, (0, 0, 0, 0), (0, 0, 0, 0), (0, 0, 0, 0)⟩
      (by simp) (by simp) (Or.inl rfl)).trans (by decide),
   (tick_clock_frame_conditions.2.2.1 [⟨none, 1, 7, 30, 0⟩] "ZMQ Error"
      (fun a => (Except.ok (decide (a.hour = 7)) : Except String Bool))
      (fun f => if f.length = 15 then some "ZMQ Error" else none)
      ⟨7, 30, 0, (0, 0, 0, 0), (0, 0, 0, 0), (0, 0, 0, 0)⟩
      (fun x _ => ⟨decide (x.hour = 7), rfl⟩) (by decide) (by decide)).trans (by decide),
   (tick_clock_frame_conditions.2.2.2.1 [⟨none, 1, 7, 30, 0⟩]
      (fun a => (Except.ok (decide (a.hour = 7)) : Except String Bool))
      (fun _ => none) ⟨7, 30, 0, (0, 0, 0, 0), (0, 0, 0, 0), (0, 0, 0, 0)⟩
      (fun x _ => ⟨decide (x.hour = 7), rfl⟩) (fun x _ => rfl) rfl).trans (by decide),
   tick_clock_frame_conditions.2.2.2.2 (.error "Database Error")
      (fun _ => (Except.ok false : Except String Bool)) (fun _ => none)
      ⟨7, 30, 0, (0, 0, 0, 0), (0, 0, 0, 0), (0, 0, 0, 0)⟩⟩
